import Mathlib

/-!
Verification of the invoice-extraction service (src/src/index.js and
src/src/controllers/fileController.js) against its specification.

The job queue of index.js is embedded as a transition system on the shared
mutable state (queue length, active worker count); all code between two
`await` suspension points runs atomically in the JavaScript event loop, so
each synchronous block becomes one step of the system.
-/

namespace JobQueue

/-- `const MAX_CONCURRENT_PROCESSORS = 10` (index.js line 13). -/
def MAX_CONCURRENT_PROCESSORS : Nat := 10

/-- Shared mutable state of index.js: the length of `processingQueue`
and the counter `activeProcessors` (lines 11-12). -/
structure QState where
  queue : Nat
  active : Nat
deriving DecidableEq, Repr

/-- The loop body of `startProcessors` (index.js lines 64-71):
`while (activeProcessors < MAX_CONCURRENT_PROCESSORS && processingQueue.length > 0)`
increments the counter and spawns `processQueue()`, whose synchronous prefix
immediately shifts one job off the queue before its first `await`.  One
iteration therefore removes one queued job and adds one active worker; the
recursion is on the queue length, which each iteration decreases. -/
def spawnLoop : Nat → Nat → QState
  | 0, a => ⟨0, a⟩
  | q + 1, a =>
    if a < MAX_CONCURRENT_PROCESSORS then spawnLoop q (a + 1) else ⟨q + 1, a⟩

/-- `startProcessors()` (index.js lines 64-71). -/
def startProcessors (s : QState) : QState := spawnLoop s.queue s.active

/-- `addToQueue` (index.js lines 55-61): push one job, then call
`startProcessors()`. -/
def addToQueue (s : QState) : QState := startProcessors ⟨s.queue + 1, s.active⟩

/-- The `finally` block of `processQueue` (index.js lines 96-104):
`activeProcessors--`, then
`if (processingQueue.length > 0 && activeProcessors < MAX_CONCURRENT_PROCESSORS) startProcessors()`. -/
def workerExit (s : QState) : QState :=
  let a := s.active - 1
  if 0 < s.queue ∧ a < MAX_CONCURRENT_PROCESSORS then startProcessors ⟨s.queue, a⟩
  else ⟨s.queue, a⟩

/-- Whether the `finally` block of `processQueue` actually re-invokes
`startProcessors` (the guard on index.js line 100, evaluated after the
decrement on line 97). -/
def workerExitRestarts (s : QState) : Bool :=
  decide (0 < s.queue ∧ s.active - 1 < MAX_CONCURRENT_PROCESSORS)

/-- Atomic steps of the queue system: an enqueue from the webhook handler,
one worker-loop iteration taking the next job (the per-job try/catch makes
this step identical for a succeeding and for a failing job), and a worker
exit (normal queue exhaustion, or the outer-catch path of an unexpected
per-worker failure; both run the same `finally` block). -/
inductive Step : QState → QState → Prop where
  | enqueue (s : QState) : Step s (addToQueue s)
  | dequeue (s : QState) : 0 < s.active → 0 < s.queue → Step s ⟨s.queue - 1, s.active⟩
  | exit (s : QState) : 0 < s.active → Step s (workerExit s)

/-- States reachable from the initial empty state (`processingQueue = []`,
`activeProcessors = 0`). -/
inductive Reachable : QState → Prop where
  | init : Reachable ⟨0, 0⟩
  | step {s t : QState} : Reachable s → Step s t → Reachable t

/-- The safety invariant maintained by every step: the worker count is
bounded, and a non-empty queue implies at least one active worker. -/
def Inv (s : QState) : Prop :=
  s.active ≤ MAX_CONCURRENT_PROCESSORS ∧ (0 < s.queue → 0 < s.active)

/-- The worker loop of `processQueue` (index.js lines 76-93), run by one
worker over the jobs it dequeues, driven by the per-job extraction
`process`, which may fail (`Except.error`).  The inner try/catch of lines
82-89 records the outcome and continues; the 500 ms delay of line 92 is
observed after every job.  The function returns the per-job outcomes in
dequeue order together with the total delay in milliseconds. -/
def processQueueRun (process : Nat → Nat → Except String Unit) :
    List (Nat × Nat) → List ((Nat × Nat) × Except String Unit) × Nat
  | [] => ([], 0)
  | j :: rest =>
    let r := process j.1 j.2
    let (rs, d) := processQueueRun process rest
    ((j, r) :: rs, d + 500)

end JobQueue

namespace Cascade

/-- First-success iteration over an ordered list of attempts, also
returning the list of attempts actually made (in order): the search stops
at the first attempt that yields a value. -/
def traceFirst {α β : Type} : List α → (α → Option β) → List α × Option β
  | [], _ => ([], none)
  | x :: rest, f =>
    match f x with
    | some b => ([x], some b)
    | none =>
      let (t, r) := traceFirst rest f
      (x :: t, r)

/-- Preprocessing strategies 1-8 of `scanQRCode`
(fileController.js lines 383-413), in source order. -/
def preStrategies : List String :=
  ["original", "greyscale-contrast", "normalize-contrast", "invert",
   "brightness", "posterize", "blur", "normalize-only"]

/-- Strategy 9 of `scanQRCode` (lines 415-428): the multi-scale downscale
attempts at target sizes 1600, 1200, 800, guarded by the original image
dimensions. -/
def downscaleStrategies : List String := ["scale-1600", "scale-1200", "scale-800"]

/-- Strategies 10-15 of `scanQRCode` (lines 430-452), tried after the
downscale block, in source order. -/
def postStrategies : List String :=
  ["posterize-aggressive", "bright-normalize", "dark-contrast",
   "posterize-first", "double-contrast", "invert-normalize"]

/-- The order in which `scanQRCode` (fileController.js lines 361-463)
tries its preprocessing strategies over an image of original dimensions
`w` by `h`: strategies 1-8, then — only when
`originalWidth > 2000 || originalHeight > 2000` — the three downscale
attempts, then strategies 10-15. -/
def strategyOrder (w h : Nat) : List String :=
  preStrategies ++
    (if 2000 < w ∨ 2000 < h then downscaleStrategies else []) ++ postStrategies

/-- `scanQRCode` abstracted over a decode oracle: `decode name` is the
outcome of `tryStrategy name` (preprocessing plus `tryQRScan`; a thrown
error inside a strategy is caught and yields `none`).  The source's chain
of `if (code) return code` early returns is exactly first-success over the
strategy order. -/
def scanQRCode (decode : String → Option String) (w h : Nat) : Option String :=
  (traceFirst (strategyOrder w h) decode).2

/-- The strategies actually attempted by a run of `scanQRCode`. -/
def scanQRCodeAttempts (decode : String → Option String) (w h : Nat) : List String :=
  (traceFirst (strategyOrder w h) decode).1

/-- Decoder engines tried by `tryQRScan` (fileController.js lines 468-518),
in source order: jsQR with both polarities, then ZXing with the
HybridBinarizer, then ZXing with the GlobalHistogramBinarizer. -/
def qrEngines : List String :=
  ["jsqr-attemptBoth", "zxing-hybridbinarizer", "zxing-globalhistogram"]

/-- `tryQRScan` abstracted over an engine oracle: each engine attempt either
returns a payload or fails (exceptions are caught and treated as `none`);
the first success is returned immediately. -/
def tryQRScan (engine : String → Option String) : Option String :=
  (traceFirst qrEngines engine).2

/-- The engines actually attempted by a run of `tryQRScan`. -/
def tryQRScanAttempts (engine : String → Option String) : List String :=
  (traceFirst qrEngines engine).1

end Cascade

namespace Rex

/-- Abstract syntax of the JavaScript regular expressions used by
fileController.js: literals (with case-insensitivity flag), single-char
classes, sequencing, ordered alternation, greedy and lazy repetition,
greedy option, capture groups 1 and 2, positive lookahead, and the
anchors of the `m` flag plus end-of-string. -/
inductive RE where
  | eps : RE
  | lit : Bool → List Char → RE
  | cls : (Char → Bool) → RE
  | seq2 : RE → RE → RE
  | alt2 : RE → RE → RE
  | star : RE → RE
  | starLazy : RE → RE
  | opt : RE → RE
  | grp : Nat → RE → RE
  | look : RE → RE
  | bol : RE
  | eolm : RE
  | eos : RE

/-- A matcher state: current position and the spans captured so far by
groups 1 and 2. -/
structure MSt where
  pos : Nat
  c1 : Option (Nat × Nat) := none
  c2 : Option (Nat × Nat) := none
deriving DecidableEq, Repr

/-- Is the code point in the inclusive range. -/
def between (lo hi : Nat) (c : Char) : Bool := decide (lo ≤ c.toNat ∧ c.toNat ≤ hi)

/-- ASCII lower-casing, used for the `i` flag. -/
def asciiLower (c : Char) : Char :=
  if between 65 90 c then Char.ofNat (c.toNat + 32) else c

/-- Character comparison under an optional case-insensitivity flag. -/
def charEq (ci : Bool) (a b : Char) : Bool :=
  if ci then asciiLower a == asciiLower b else a == b

/-- Match a literal starting at a position, returning the end position. -/
def litAt (input : List Char) : Nat → List Char → Bool → Option Nat
  | pos, [], _ => some pos
  | pos, c :: cs, ci =>
    match input.get? pos with
    | some d => if charEq ci c d then litAt input (pos + 1) cs ci else none
    | none => none

/-- JavaScript line terminators recognized by the `m`-flag anchors. -/
def isLineBreak (c : Char) : Bool := c == '\n' || c == '\r'

/-- The backtracking matcher: all ways the expression can match starting
from a state, in JavaScript priority order (a greedy repetition yields
longer matches first, a lazy one shorter first, alternation left first);
a regex search takes the head of this list.  The fuel bounds the call
depth and is chosen large enough for every pattern of the source. -/
def mrun (input : List Char) : Nat → RE → MSt → List MSt
  | 0, _, _ => []
  | fuel + 1, re, st =>
    match re with
    | .eps => [st]
    | .lit ci s =>
      match litAt input st.pos s ci with
      | some p => [{ st with pos := p }]
      | none => []
    | .cls p =>
      match input.get? st.pos with
      | some d => if p d then [{ st with pos := st.pos + 1 }] else []
      | none => []
    | .seq2 r1 r2 => (mrun input fuel r1 st).flatMap (fun st1 => mrun input fuel r2 st1)
    | .alt2 r1 r2 => mrun input fuel r1 st ++ mrun input fuel r2 st
    | .star r =>
      ((mrun input fuel r st).flatMap (fun st1 =>
        if st1.pos = st.pos then [] else mrun input fuel (.star r) st1)) ++ [st]
    | .starLazy r =>
      st :: (mrun input fuel r st).flatMap (fun st1 =>
        if st1.pos = st.pos then [] else mrun input fuel (.starLazy r) st1)
    | .opt r => mrun input fuel r st ++ [st]
    | .grp n r =>
      (mrun input fuel r st).map (fun st1 =>
        if n = 1 then { st1 with c1 := some (st.pos, st1.pos) }
        else { st1 with c2 := some (st.pos, st1.pos) })
    | .look r => if (mrun input fuel r st).isEmpty then [] else [st]
    | .bol =>
      if st.pos = 0 then [st]
      else
        match input.get? (st.pos - 1) with
        | some d => if isLineBreak d then [st] else []
        | none => []
    | .eolm =>
      if st.pos = input.length then [st]
      else
        match input.get? st.pos with
        | some d => if isLineBreak d then [st] else []
        | none => []
    | .eos => if st.pos = input.length then [st] else []

/-- Call-depth budget for `mrun`; each repetition of a pattern advances
the position, so the depth is linear in the input length. -/
def fuelFor (input : List Char) : Nat := input.length * 8 + 200

/-- Leftmost search: try match start positions from `i` upward
(`k` positions remain), as `RegExp.prototype.match` does. -/
def searchFrom (input : List Char) (re : RE) : Nat → Nat → Option MSt
  | 0, _ => none
  | k + 1, i =>
    match (mrun input (fuelFor input) re { pos := i }).head? with
    | some st => some st
    | none => searchFrom input re k (i + 1)

/-- `text.match(re)`: the leftmost, highest-priority match. -/
def search (input : List Char) (re : RE) : Option MSt :=
  searchFrom input re (input.length + 1) 0

/-- The substring spanned by a captured group. -/
def slice (input : List Char) (ab : Nat × Nat) : List Char :=
  (input.drop ab.1).take (ab.2 - ab.1)

/-- `match[1]` of a search, when the search succeeds and group 1
participated. -/
def group1 (input : List Char) (re : RE) : Option (List Char) :=
  (search input re).bind (fun st => st.c1.map (slice input))

/-- `match[1]` and `match[2]` of a search. -/
def group12 (input : List Char) (re : RE) : Option (List Char × Option (List Char)) :=
  (search input re).bind
    (fun st => st.c1.map (fun ab => (slice input ab, st.c2.map (slice input))))

/-- Sequencing of a pattern list. -/
def seqL (l : List RE) : RE := l.foldr RE.seq2 RE.eps

/-- Ordered alternation of a pattern list. -/
def altL : List RE → RE
  | [] => RE.cls (fun _ => false)
  | [r] => r
  | r :: rs => RE.alt2 r (altL rs)

/-- Case-insensitive literal (a pattern fragment under the `i` flag). -/
def litci (s : String) : RE := RE.lit true s.toList

/-- Case-sensitive literal. -/
def litcs (s : String) : RE := RE.lit false s.toList

/-- Greedy `+`. -/
def plusG (r : RE) : RE := RE.seq2 r (RE.star r)

/-- Lazy `+?`. -/
def plusLazy (r : RE) : RE := RE.seq2 r (RE.starLazy r)

/-- Exactly `n` copies. -/
def repN : Nat → RE → RE
  | 0, _ => RE.eps
  | n + 1, r => RE.seq2 r (repN n r)

/-- Up to `n` copies, greedy. -/
def optN : Nat → RE → RE
  | 0, _ => RE.eps
  | n + 1, r => RE.seq2 (RE.opt r) (optN n r)

/-- JavaScript `\s` (the whitespace characters relevant here). -/
def isJsWs (c : Char) : Bool :=
  c == ' ' || c == '\t' || c == '\n' || c == '\r' ||
    c.toNat == 11 || c.toNat == 12 || c.toNat == 160

def clsWs : RE := RE.cls isJsWs
def clsD : RE := RE.cls Char.isDigit
def clsWsColon : RE := RE.cls (fun c => isJsWs c || c == ':')
def clsDigitDot : RE := RE.cls (fun c => c.isDigit || c == '.')
def clsDigitComma : RE := RE.cls (fun c => c.isDigit || c == ',')
def clsDotComma : RE := RE.cls (fun c => c == '.' || c == ',')

/-- The class `[\$€£R\$]` under the `i` flag (so also lowercase r). -/
def clsCurrSym : RE :=
  RE.cls (fun c => c == '$' || c == '€' || c == '£' || c == 'R' || c == 'r')

def clsColonDash : RE := RE.cls (fun c => c == ':' || c == '-')
def clsColonDashWs : RE := RE.cls (fun c => c == ':' || c == '-' || isJsWs c)

def isAsciiLetter (c : Char) : Bool := between 65 90 c || between 97 122 c

/-- Latin-1 letters `À-ÿ` (code points 0xC0-0xFF). -/
def isHighLatin (c : Char) : Bool := between 192 255 c

/-- The class `[A-Z0-9\/\-]` under the `i` flag. -/
def clsInvSlash : RE :=
  RE.cls (fun c => isAsciiLetter c || c.isDigit || c == '/' || c == '-')

/-- The class `[A-Z0-9\-]` under the `i` flag. -/
def clsInv : RE := RE.cls (fun c => isAsciiLetter c || c.isDigit || c == '-')

/-- The class `[A-Z0-9\-]` with no `i` flag (the `#` pattern). -/
def clsInvCS : RE := RE.cls (fun c => between 65 90 c || c.isDigit || c == '-')

/-- The class `[A-ZÀ-ÿ]` under the `i` flag. -/
def clsUpperName : RE := RE.cls (fun c => isAsciiLetter c || isHighLatin c)

/-- The class `[A-Za-zÀ-ÿ\s&,.-]` under the `i` flag. -/
def clsNameChar : RE :=
  RE.cls (fun c => isAsciiLetter c || isHighLatin c || isJsWs c ||
    c == '&' || c == ',' || c == '.' || c == '-')

end Rex

namespace Parse

open Rex

/-- `(?:total|total\s*incidencias|valor\s*total|total\s*a\s*pagar)`. -/
def altTotalWords : RE :=
  altL [litci "total",
        seqL [litci "total", RE.star clsWs, litci "incidencias"],
        seqL [litci "valor", RE.star clsWs, litci "total"],
        seqL [litci "total", RE.star clsWs, litci "a", RE.star clsWs, litci "pagar"]]

/-- `(?:eur|€|usd|\$|gbp|£)`. -/
def altCurr6 : RE :=
  altL [litci "eur", litcs "€", litci "usd", litcs "$", litci "gbp", litcs "£"]

/-- `(?:eur|€|usd|\$|gbp|£|r\$)`. -/
def altCurr7 : RE :=
  altL [litci "eur", litcs "€", litci "usd", litcs "$", litci "gbp", litcs "£",
        litci "r$"]

/-- `[\d.]+,\d{2}` (the body of the European-format amount group). -/
def moneyEU : RE := seqL [plusG clsDigitDot, litcs ",", clsD, clsD]

/-- `\d+[.,]\d{2}`. -/
def moneyDigits : RE := seqL [plusG clsD, clsDotComma, clsD, clsD]

/-- `[\d,]+\.?\d{0,2}`. -/
def moneyUS : RE := seqL [plusG clsDigitComma, RE.opt (litcs "."), optN 2 clsD]

/-- `[\d,]+\.\d{2}`. -/
def moneyUSdot : RE := seqL [plusG clsDigitComma, litcs ".", clsD, clsD]

/-- Total pattern 1 (fileController.js line 234):
`/(?:total|total\s*incidencias|valor\s*total|total\s*a\s*pagar)[\s:]*(?:eur|€|usd|\$|gbp|£)\s*([\d.]+,\d{2})/i`. -/
def totalP0 : RE :=
  seqL [altTotalWords, RE.star clsWsColon, altCurr6, RE.star clsWs,
        RE.grp 1 moneyEU]

/-- Total pattern 2 (line 237): `/(?:eur|€|usd|\$|gbp|£|r\$)\s*([\d.]+,\d{2})/i`. -/
def totalP1 : RE := seqL [altCurr7, RE.star clsWs, RE.grp 1 moneyEU]

/-- Total pattern 3 (line 240):
`/(?:total|total\s*a\s*pagar|valor\s*total|montante)[\s:]*(\d+[.,]\d{2})/i`. -/
def totalP2 : RE :=
  seqL [altL [litci "total",
              seqL [litci "total", RE.star clsWs, litci "a", RE.star clsWs, litci "pagar"],
              seqL [litci "valor", RE.star clsWs, litci "total"],
              litci "montante"],
        RE.star clsWsColon, RE.grp 1 moneyDigits]

/-- Total pattern 4 (line 243): `/(?:a\s*pagar|pagar)[\s:]*(?:eur|€)?\s*([\d.]+,\d{2})/i`. -/
def totalP3 : RE :=
  seqL [altL [seqL [litci "a", RE.star clsWs, litci "pagar"], litci "pagar"],
        RE.star clsWsColon, RE.opt (altL [litci "eur", litcs "€"]),
        RE.star clsWs, RE.grp 1 moneyEU]

/-- Total pattern 5 (line 246):
`/(?:total\s*amount\s*due|amount\s*due|balance\s*due|final\s*total)[\s:]*[\$€£R\$]?\s*([\d,]+\.?\d{0,2})/i`. -/
def totalP4 : RE :=
  seqL [altL [seqL [litci "total", RE.star clsWs, litci "amount", RE.star clsWs, litci "due"],
              seqL [litci "amount", RE.star clsWs, litci "due"],
              seqL [litci "balance", RE.star clsWs, litci "due"],
              seqL [litci "final", RE.star clsWs, litci "total"]],
        RE.star clsWsColon, RE.opt clsCurrSym, RE.star clsWs, RE.grp 1 moneyUS]

/-- Total pattern 6 (line 249): `/(?:grand\s*total)[\s:]*[\$€£R\$]?\s*([\d,]+\.?\d{0,2})/i`. -/
def totalP5 : RE :=
  seqL [litci "grand", RE.star clsWs, litci "total", RE.star clsWsColon,
        RE.opt clsCurrSym, RE.star clsWs, RE.grp 1 moneyUS]

/-- Total pattern 7 (line 252):
`/(?:total|valor\s*total|total\s*geral)[\s:]*R\$?\s*([\d.]+,\d{2})/i`. -/
def totalP6 : RE :=
  seqL [altL [litci "total",
              seqL [litci "valor", RE.star clsWs, litci "total"],
              seqL [litci "total", RE.star clsWs, litci "geral"]],
        RE.star clsWsColon, litci "R", RE.opt (litcs "$"), RE.star clsWs,
        RE.grp 1 moneyEU]

/-- Total pattern 8 (line 255): `/([\d.]+,\d{2})\s*(?:USD|EUR|BRL|GBP|Eur|€)/i`. -/
def totalP7 : RE :=
  seqL [RE.grp 1 moneyEU, RE.star clsWs,
        altL [litci "USD", litci "EUR", litci "BRL", litci "GBP", litci "Eur",
              litcs "€"]]

/-- Total pattern 9 (line 258): `/([\d,]+\.\d{2})\s*(?:USD|EUR|BRL|GBP)/i`. -/
def totalP8 : RE :=
  seqL [RE.grp 1 moneyUSdot, RE.star clsWs,
        altL [litci "USD", litci "EUR", litci "BRL", litci "GBP"]]

/-- Total pattern 10 (line 261):
`/(\d{1,6}[.,]\d{2})(?=\s*(?:€|eur|usd|\$|gbp|£)?\s*$)/i`. -/
def totalP9 : RE :=
  seqL [RE.grp 1 (seqL [clsD, optN 5 clsD, clsDotComma, clsD, clsD]),
        RE.look (seqL [RE.star clsWs,
                       RE.opt (altL [litcs "€", litci "eur", litci "usd",
                                     litcs "$", litci "gbp", litcs "£"]),
                       RE.star clsWs, RE.eos])]

/-- The array `totalPatterns` (fileController.js lines 232-262), in order. -/
def totalPatterns : List RE :=
  [totalP0, totalP1, totalP2, totalP3, totalP4, totalP5, totalP6, totalP7,
   totalP8, totalP9]

/-- Invoice pattern 1 (line 300): `/(FT[A]?|FR|FA)\s+([A-Z0-9\/\-]+)/i`. -/
def invP0 : RE :=
  seqL [RE.grp 1 (altL [seqL [litci "FT", RE.opt (litci "A")], litci "FR", litci "FA"]),
        plusG clsWs, RE.grp 2 (plusG clsInvSlash)]

/-- Invoice pattern 2 (line 301): `/(?:fatura-recibo|fatura)\s*n[:\-]?\s*([A-Z0-9\/\-]+)/i`. -/
def invP1 : RE :=
  seqL [altL [litci "fatura-recibo", litci "fatura"], RE.star clsWs, litci "n",
        RE.opt clsColonDash, RE.star clsWs, RE.grp 1 (plusG clsInvSlash)]

/-- Invoice pattern 3 (line 302): `/invoice\s*number\s*[:\-]?\s*([A-Z0-9\-]+)/i`. -/
def invP2 : RE :=
  seqL [litci "invoice", RE.star clsWs, litci "number", RE.star clsWs,
        RE.opt clsColonDash, RE.star clsWs, RE.grp 1 (plusG clsInv)]

/-- Invoice pattern 4 (line 303): `/invoice\s*#\s*[:\-]?\s*([A-Z0-9\-]+)/i`. -/
def invP3 : RE :=
  seqL [litci "invoice", RE.star clsWs, litcs "#", RE.star clsWs,
        RE.opt clsColonDash, RE.star clsWs, RE.grp 1 (plusG clsInv)]

/-- Invoice pattern 5 (line 304): `/invoice[:\-]\s*([A-Z0-9\-]+)/i`. -/
def invP4 : RE :=
  seqL [litci "invoice", clsColonDash, RE.star clsWs, RE.grp 1 (plusG clsInv)]

/-- Invoice pattern 6 (line 305): `/nota\s*fiscal\s*[:\-]?\s*([A-Z0-9\-]+)/i`. -/
def invP5 : RE :=
  seqL [litci "nota", RE.star clsWs, litci "fiscal", RE.star clsWs,
        RE.opt clsColonDash, RE.star clsWs, RE.grp 1 (plusG clsInv)]

/-- Invoice pattern 7 (line 306): `/#\s*([A-Z0-9\-]{5,})/` (no `i` flag). -/
def invP6 : RE :=
  seqL [litcs "#", RE.star clsWs,
        RE.grp 1 (seqL [repN 5 clsInvCS, RE.star clsInvCS])]

/-- Invoice pattern 8 (line 307): `/INV[:\-\s]*([A-Z0-9\-]+)/i`. -/
def invP7 : RE :=
  seqL [litci "INV", RE.star clsColonDashWs, RE.grp 1 (plusG clsInv)]

/-- The array `invoiceNumberPatterns` (lines 298-308), in order. -/
def invoicePatterns : List RE :=
  [invP0, invP1, invP2, invP3, invP4, invP5, invP6, invP7]

/-- Supplier pattern 1 (line 326):
`/^([A-ZÀ-ÿ][A-Za-zÀ-ÿ\s&,.-]+?)(?:\s+de:|NIF:|Urb\.|Rua|Av\.|Tel:|Email)/im`. -/
def supP0 : RE :=
  seqL [RE.bol, RE.grp 1 (RE.seq2 clsUpperName (plusLazy clsNameChar)),
        altL [seqL [plusG clsWs, litci "de:"], litci "NIF:", litci "Urb.",
              litci "Rua", litci "Av.", litci "Tel:", litci "Email"]]

/-- Supplier pattern 2 (line 328): `/^([A-ZÀ-ÿ][A-Za-zÀ-ÿ\s&,.-]+?)$/m`. -/
def supP1 : RE :=
  seqL [RE.bol, RE.grp 1 (RE.seq2 clsUpperName (plusLazy clsNameChar)), RE.eolm]

/-- Supplier pattern 3 (line 330): `/(?:de|from)[\s:]+([A-ZÀ-ÿ][A-Za-zÀ-ÿ\s&,.-]+)/i`. -/
def supP2 : RE :=
  seqL [altL [litci "de", litci "from"], plusG clsWsColon,
        RE.grp 1 (RE.seq2 clsUpperName (plusG clsNameChar))]

/-- The array `supplierPatterns` (lines 324-331), in order. -/
def supplierPatterns : List RE := [supP0, supP1, supP2]

/-- The currency pattern (line 286): `/(\$|USD|€|EUR|Eur|£|GBP|R\$|BRL)/i`. -/
def currencyRE : RE :=
  RE.grp 1 (altL [litcs "$", litci "USD", litcs "€", litci "EUR", litci "Eur",
                  litcs "£", litci "GBP", litci "R$", litci "BRL"])

/-- The fallback total pattern of `parseQRCodeData` (line 589): `/(\d+[.,]\d{2})/`. -/
def qrTotalRE : RE := RE.grp 1 moneyDigits

end Parse

namespace Parse

open Rex

/-- JavaScript `String.prototype.split` with a one-character separator:
splits at every occurrence, keeping empty pieces. -/
def splitChar (sep : Char) : List Char → List (List Char)
  | [] => [[]]
  | c :: rest =>
    match splitChar sep rest with
    | [] => [[]]
    | h :: t => if c = sep then [] :: h :: t else (c :: h) :: t

/-- JavaScript `String.prototype.trim` (both ends, JS whitespace). -/
def trimWs (l : List Char) : List Char :=
  ((l.dropWhile isJsWs).reverse.dropWhile isJsWs).reverse

/-- `text.replace(/\s+/g, ' ')`: each whitespace run becomes one space. -/
def collapseWs (l : List Char) : List Char :=
  l.foldr
    (fun c acc =>
      if isJsWs c then
        match acc with
        | d :: _ => if d = ' ' then acc else ' ' :: acc
        | [] => [' ']
      else c :: acc) []

/-- `value.replace(c, d)` for a one-character pattern: JavaScript replaces
only the first occurrence. -/
def replaceFirstChar : List Char → Char → Char → List Char
  | [], _, _ => []
  | x :: rest, a, b => if x = a then b :: rest else x :: replaceFirstChar rest a b

/-- `value.lastIndexOf(c)`: the greatest index of `c`, or -1. -/
def lastIndexOf : List Char → Char → Int
  | [], _ => -1
  | x :: xs, c =>
    let r := lastIndexOf xs c
    if 0 ≤ r then r + 1 else if x = c then 0 else -1

/-- An exact decimal number: `num / 10 ^ exp`.  The values produced by
`parseFloat` on the digit strings arising here are decimals, represented
exactly. -/
structure Dec where
  num : Int
  exp : Nat
deriving DecidableEq, Repr

/-- The rational value of a decimal. -/
def Dec.toQ (d : Dec) : ℚ := d.num / (10 : ℚ) ^ d.exp

/-- Numeric value of a digit string. -/
def digitsNat (l : List Char) : Nat :=
  l.foldl (fun acc c => acc * 10 + (c.toNat - 48)) 0

/-- JavaScript `parseFloat` on the strings arising here: optional leading
whitespace and sign, then the longest `digits[.digits]` prefix; `none`
models `NaN`.  The sign of the result is the sign of `num`, so the
source's `> 0` comparisons become `0 < num`. -/
def parseFloatDec (l : List Char) : Option Dec :=
  let l1 := l.dropWhile isJsWs
  let sl :=
    match l1 with
    | '-' :: rest => ((-1 : Int), rest)
    | '+' :: rest => ((1 : Int), rest)
    | _ => ((1 : Int), l1)
  let ip := sl.2.takeWhile Char.isDigit
  let rest := sl.2.drop ip.length
  match rest with
  | '.' :: tail =>
    let fp := tail.takeWhile Char.isDigit
    if ip.isEmpty ∧ fp.isEmpty then none
    else some ⟨sl.1 * (digitsNat ip * 10 ^ fp.length + digitsNat fp), fp.length⟩
  | _ => if ip.isEmpty then none else some ⟨sl.1 * digitsNat ip, 0⟩

/-- The branch condition of the amount normalization
(fileController.js line 270):
`value.includes(',') && value.lastIndexOf(',') > value.lastIndexOf('.')`. -/
def commaDecimal (v : List Char) : Bool :=
  v.contains ',' && decide (lastIndexOf v '.' < lastIndexOf v ',')

/-- The amount normalization (lines 269-275): under the comma-decimal
convention drop all periods and turn the first comma into a period,
otherwise drop all commas. -/
def normalizeAmount (v : List Char) : List Char :=
  if commaDecimal v then replaceFirstChar (v.filter (fun c => c != '.')) ',' '.'
  else v.filter (fun c => c != ',')

/-- The record built by `parseInvoiceData` (lines 219-225). -/
structure TextInvoiceData where
  totalValue : Option Dec
  currency : Option String
  invoiceNumber : Option String
  invoiceDate : Option String
  supplierName : Option String
deriving DecidableEq, Repr

/-- The record built by `parseQRCodeData` (lines 524-531). -/
structure QRInvoiceData where
  totalValue : Option Dec
  currency : Option String
  invoiceNumber : Option String
  invoiceDate : Option String
  supplierName : Option String
  customerNIF : Option String
deriving DecidableEq, Repr

/-- The total-extraction loop of `parseInvoiceData` (lines 264-283): first
pattern whose match normalizes and parses to a value strictly greater than
zero wins; a match that fails to parse positive falls through to the next
pattern. -/
def totalLoop (clean : List Char) : List RE → Option Dec
  | [] => none
  | p :: rest =>
    match Rex.group1 clean p with
    | some v =>
      match parseFloatDec (normalizeAmount v) with
      | some q => if 0 < q.num then some q else totalLoop clean rest
      | none => totalLoop clean rest
    | none => totalLoop clean rest

/-- Total-value extraction over the pattern array. -/
def extractTotalValue (clean : List Char) : Option Dec := totalLoop clean totalPatterns

/-- The literal `currencyMap` object (lines 288-293). -/
def currencyMap : List (String × String) :=
  [("$", "USD"), ("USD", "USD"), ("€", "EUR"), ("EUR", "EUR"), ("Eur", "EUR"),
   ("£", "GBP"), ("GBP", "GBP"), ("R$", "BRL"), ("BRL", "BRL")]

/-- ASCII upper-casing, for `match[1].toUpperCase()`. -/
def asciiUpperStr (s : String) : String :=
  String.mk (s.toList.map (fun c => if between 97 122 c then Char.ofNat (c.toNat - 32) else c))

/-- `currencyMap[match[1]] || match[1].toUpperCase()` (line 294). -/
def currencyCanon (s : String) : String :=
  match currencyMap.lookup s with
  | some t => t
  | none => asciiUpperStr s

/-- Currency extraction (lines 286-295). -/
def extractCurrency (clean : List Char) : Option String :=
  match Rex.group1 clean currencyRE with
  | some m => some (currencyCanon (String.mk m))
  | none => none

/-- The invoice-number loop (lines 310-321): on the first matching pattern,
join `match[1]` and `match[2]` with a space when `match[2]` is truthy, else
take `match[1]` trimmed. -/
def invoiceLoop (clean : List Char) : List RE → Option String
  | [] => none
  | p :: rest =>
    match Rex.group12 clean p with
    | some (g1, some g2) =>
      if g2.isEmpty then some (String.mk (trimWs g1))
      else some (String.mk (trimWs (g1 ++ ' ' :: g2)))
    | some (g1, none) => some (String.mk (trimWs g1))
    | none => invoiceLoop clean rest

/-- Invoice-number extraction over the pattern array. -/
def extractInvoiceNumber (clean : List Char) : Option String :=
  invoiceLoop clean invoicePatterns

/-- The supplier-pattern loop (lines 345-353), run against the raw text. -/
def supplierLoop (text : List Char) : List RE → Option String
  | [] => none
  | p :: rest =>
    match Rex.group1 text p with
    | some g1 => if g1.isEmpty then supplierLoop text rest
                 else some (String.mk (trimWs g1))
    | none => supplierLoop text rest

/-- Supplier extraction (lines 333-353): the first non-blank line when its
trimmed length is strictly between 3 and 100, else the first matching
supplier pattern. -/
def extractSupplier (text : List Char) : Option String :=
  let lines := (splitChar '\n' text).filter (fun l => !(trimWs l).isEmpty)
  let fromFirst : Option String :=
    match lines with
    | [] => none
    | l0 :: _ =>
      let f := trimWs l0
      if 3 < f.length ∧ f.length < 100 then some (String.mk f) else none
  match fromFirst with
  | some s => some s
  | none => supplierLoop text supplierPatterns

/-- `parseInvoiceData` (fileController.js lines 218-356): whitespace is
collapsed and trimmed for the pattern matching; the supplier heuristics
run on the raw text; `invoiceDate` is never assigned. -/
def parseInvoiceData (text : String) : TextInvoiceData :=
  let cs := text.toList
  let clean := trimWs (collapseWs cs)
  { totalValue := extractTotalValue clean
    currency := extractCurrency clean
    invoiceNumber := extractInvoiceNumber clean
    invoiceDate := none
    supplierName := extractSupplier cs }

/-- The initial record of `parseQRCodeData` (lines 524-531): every field
null except `currency`, initialized to the string EUR. -/
def initQRData : QRInvoiceData :=
  ⟨none, some "EUR", none, none, none, none⟩

/-- The `forEach` body of `parseQRCodeData` (lines 538-578): split the
segment on the colon, skip it when key or value is missing or empty,
then dispatch on the trimmed key: G stores the trimmed value as invoice
number, A as customer NIF, O parses the value (first comma turned into a
period) and stores it only when strictly positive, F of an 8-character
value is formatted as an ISO date from its first four, next two and last
two characters. -/
def applyQRField (acc : QRInvoiceData) (field : List Char) : QRInvoiceData :=
  match splitChar ':' field with
  | [] => acc
  | [_] => acc
  | key :: value :: _ =>
    if key.isEmpty || value.isEmpty then acc
    else if trimWs key = ['G'] then
      { acc with invoiceNumber := some (String.mk (trimWs value)) }
    else if trimWs key = ['A'] then
      { acc with customerNIF := some (String.mk (trimWs value)) }
    else if trimWs key = ['O'] then
      match parseFloatDec (replaceFirstChar value ',' '.') with
      | some q => if 0 < q.num then { acc with totalValue := some q } else acc
      | none => acc
    else if trimWs key = ['F'] then
      if value.length = 8 then
        { acc with invoiceDate := some (String.mk
            (value.take 4 ++ '-' :: ((value.drop 4).take 2 ++ '-' :: value.drop 6))) }
      else acc
    else acc

/-- The invoice-number statement of the `parseQRCodeData` fallback
(fileController.js lines 582-586): try the free-text invoice pattern on
the raw payload and, on a match, join `match[1]` and `match[2]`. -/
def qrFallbackInvoice (cs : List Char) (d : QRInvoiceData) : QRInvoiceData :=
  match Rex.group12 cs invP0 with
  | some (g1, some g2) =>
    { d with invoiceNumber := some (String.mk (trimWs (g1 ++ ' ' :: g2))) }
  | _ => d

/-- The fallback of `parseQRCodeData` (lines 580-596), applied when
neither a total nor a truthy invoice number was extracted: the free-text
invoice pattern, then a bare decimal pattern whose parse is stored with
no positivity check. -/
def qrFallback (cs : List Char) (d : QRInvoiceData) : QRInvoiceData :=
  if d.totalValue = none ∧ (d.invoiceNumber = none ∨ d.invoiceNumber = some "") then
    match Rex.group1 cs qrTotalRE with
    | some m =>
      match parseFloatDec (replaceFirstChar m ',' '.') with
      | some q => { qrFallbackInvoice cs d with totalValue := some q }
      | none => qrFallbackInvoice cs d
    | none => qrFallbackInvoice cs d
  else d

/-- `parseQRCodeData` (fileController.js lines 523-599): fold the ATCUD
segment handler over the asterisk-separated fields, then apply the
fallback. -/
def parseQRCodeData (qrData : String) : QRInvoiceData :=
  qrFallback qrData.toList ((splitChar '*' qrData.toList).foldl applyQRField initQRData)

end Parse

namespace Parse

/-- The representative ATCUD payload used by the testable properties (the
format documented at fileController.js lines 533-534, with the date and
total segments of the spec's examples). -/
def atcudPayload : String :=
  "A:123456789*B:FT 2025/123*C:PT*D:FT*E:N*F:20250929*G:FT 2025/123*H:0*O:55,20"

end Parse

namespace Pdf

open Parse

/-- `pdfDocument.getPage(1)` (fileController.js line 73): only the first
page is rasterized. -/
def pdfPageNumber : Nat := 1

/-- `const scales = [4.0, 3.5, 3.0, 2.5, 2.0]` (fileController.js line 76). -/
def pdfScales : List ℚ := [4, 7/2, 3, 5/2, 2]

/-- The object returned by `extractFromPDF`: the decoded text, the method
tag, and the invoice fields; a field absent from the returned object is
`none`. -/
structure ExtractResult where
  text : String
  method : String
  totalValue : Option Dec := none
  currency : Option String := none
  invoiceNumber : Option String := none
  invoiceDate : Option String := none
  supplierName : Option String := none
  customerNIF : Option String := none
deriving DecidableEq, Repr

/-- The scale loop of `extractFromPDF` (fileController.js lines 78-113),
abstracted over `attempt`, which renders the page at a scale and scans the
raster for a QR payload: a thrown render or scan error (`Except.error`) is
caught by the per-scale catch and the loop advances, a scan returning no
payload (`Except.ok none`) also advances, and the first payload found is
returned. -/
def pdfScaleLoop (attempt : ℚ → Except String (Option String)) :
    List ℚ → Option String
  | [] => none
  | s :: rest =>
    match attempt s with
    | Except.ok (some qr) => some qr
    | Except.ok none => pdfScaleLoop attempt rest
    | Except.error _ => pdfScaleLoop attempt rest

/-- `extractFromPDF` (fileController.js lines 62-145): run the scale loop
over the scale list; on a payload, parse it and return it under the method
tag qr-code-pdf; when every scale fails to yield a payload, return the
record with every invoice field null under the method tag
qr-code-pdf-failed instead of throwing. -/
def extractFromPDF (attempt : ℚ → Except String (Option String)) : ExtractResult :=
  match pdfScaleLoop attempt pdfScales with
  | some qr =>
    let d := parseQRCodeData qr
    { text := qr, method := "qr-code-pdf", totalValue := d.totalValue,
      currency := d.currency, invoiceNumber := d.invoiceNumber,
      invoiceDate := d.invoiceDate, supplierName := d.supplierName,
      customerNIF := d.customerNIF }
  | none => { text := "", method := "qr-code-pdf-failed" }

end Pdf

namespace JobQueue

lemma spawnLoop_active_le {q a : Nat} (h : a ≤ MAX_CONCURRENT_PROCESSORS) :
    (spawnLoop q a).active ≤ MAX_CONCURRENT_PROCESSORS := by
  induction q generalizing a with
  | zero => simpa [spawnLoop]
  | succ q ih =>
    by_cases hlt : a < MAX_CONCURRENT_PROCESSORS
    · simpa [spawnLoop, hlt] using ih hlt
    · simpa [spawnLoop, hlt]

lemma spawnLoop_queue_pos {q a : Nat} (h : 0 < (spawnLoop q a).queue) :
    MAX_CONCURRENT_PROCESSORS ≤ (spawnLoop q a).active := by
  induction q generalizing a with
  | zero => simp [spawnLoop] at h
  | succ q ih =>
    by_cases hlt : a < MAX_CONCURRENT_PROCESSORS
    · simp only [spawnLoop, hlt, if_true] at h ⊢
      exact ih h
    · simpa [spawnLoop, hlt] using Nat.le_of_not_lt hlt

lemma inv_spawnLoop {q a : Nat} (h : a ≤ MAX_CONCURRENT_PROCESSORS) :
    Inv (spawnLoop q a) := by
  refine ⟨spawnLoop_active_le h, fun hq => ?_⟩
  have h2 := spawnLoop_queue_pos hq
  have hM : 0 < MAX_CONCURRENT_PROCESSORS := by norm_num [MAX_CONCURRENT_PROCESSORS]
  omega

lemma inv_step {s t : QState} (hinv : Inv s) (hst : Step s t) : Inv t := by
  obtain ⟨hle, hpos⟩ := hinv
  cases hst with
  | enqueue => exact inv_spawnLoop hle
  | dequeue ha hq =>
    exact ⟨hle, fun _ => ha⟩
  | exit ha =>
    unfold workerExit
    by_cases hc : 0 < s.queue ∧ s.active - 1 < MAX_CONCURRENT_PROCESSORS
    · simp only [hc, if_true]
      exact inv_spawnLoop (q := s.queue) (a := s.active - 1) (by omega)
    · simp only [hc, if_false]
      constructor
      · show s.active - 1 ≤ _
        omega
      · intro hq
        simp only [not_and, not_lt] at hc
        have h2 := hc hq
        show 0 < s.active - 1
        omega

lemma inv_reachable {s : QState} (h : Reachable s) : Inv s := by
  induction h with
  | init => exact ⟨by simp [MAX_CONCURRENT_PROCESSORS], by simp⟩
  | step _ hstep ih => exact inv_step ih hstep

lemma reachable_addToQueue {s : QState} (h : Reachable s) :
    Reachable (addToQueue s) := h.step (Step.enqueue s)

end JobQueue

namespace Cascade

lemma traceFirst_append_cons {α β : Type} (f : α → Option β) (x : α) (b : β)
    (pre post : List α) (hpre : ∀ y ∈ pre, f y = none) (hx : f x = some b) :
    traceFirst (pre ++ x :: post) f = (pre ++ [x], some b) := by
  induction pre with
  | nil => simp [traceFirst, hx]
  | cons y ys ih =>
    have hy : f y = none := hpre y (List.mem_cons_self y ys)
    have ih2 := ih (fun z hz => hpre z (List.mem_cons_of_mem y hz))
    simp [traceFirst, hy, ih2]

end Cascade

namespace Parse

lemma splitChar_no_sep {sep : Char} {l : List Char} (h : sep ∉ l) :
    splitChar sep l = [l] := by
  induction l with
  | nil => rfl
  | cons c rest ih =>
    have hc : c ≠ sep := fun he => h (he ▸ List.mem_cons_self c rest)
    have hr : sep ∉ rest := fun hm => h (List.mem_cons_of_mem c hm)
    simp [splitChar, ih hr, hc]

lemma lastIndexOf_nonneg_contains {l : List Char} {c : Char}
    (h : 0 ≤ lastIndexOf l c) : c ∈ l := by
  induction l with
  | nil => simp [lastIndexOf] at h
  | cons x xs ih =>
    by_cases hr : 0 ≤ lastIndexOf xs c
    · exact List.mem_cons_of_mem x (ih hr)
    · by_cases hx : x = c
      · exact hx ▸ List.mem_cons_self x xs
      · simp only [lastIndexOf, if_neg hr, if_neg hx] at h
        omega

lemma commaDecimal_iff (v : List Char) :
    commaDecimal v = true ↔ lastIndexOf v '.' < lastIndexOf v ',' := by
  unfold commaDecimal
  constructor
  · intro h
    simp only [Bool.and_eq_true, decide_eq_true_eq] at h
    exact h.2
  · intro h
    have hge : -1 ≤ lastIndexOf v '.' := by
      induction v with
      | nil => simp [lastIndexOf]
      | cons x xs ih =>
        simp only [lastIndexOf]
        split_ifs <;> omega
    have hmem : ',' ∈ v := lastIndexOf_nonneg_contains (by omega)
    simp only [Bool.and_eq_true, decide_eq_true_eq]
    exact ⟨List.elem_eq_true_of_mem hmem, h⟩

end Parse

namespace Parse

/-- Unfolding equation of `splitChar` on a cons cell. -/
lemma splitChar_cons (sep c : Char) (rest : List Char) :
    splitChar sep (c :: rest) =
      match splitChar sep rest with
      | [] => [[]]
      | h :: t => if c = sep then [] :: h :: t else (c :: h) :: t := rfl

/-- A segment `k:v` with `k` not the separator and `v` free of separators
splits into exactly the key and the value. -/
lemma splitChar_field (k : Char) (v : List Char) (hk : k ≠ ':') (hv : ':' ∉ v) :
    splitChar ':' (k :: ':' :: v) = [[k], v] := by
  have h1 : splitChar ':' v = [v] := splitChar_no_sep hv
  rw [splitChar_cons, splitChar_cons, h1]
  simp [hk]

/-- `applyQRField` never assigns the currency or supplier fields. -/
lemma applyQRField_preserve (acc : QRInvoiceData) (f : List Char) :
    (applyQRField acc f).currency = acc.currency ∧
    (applyQRField acc f).supplierName = acc.supplierName := by
  unfold applyQRField
  (repeat' split) <;> exact ⟨rfl, rfl⟩

/-- The segment fold never assigns the currency or supplier fields. -/
lemma foldl_applyQRField_preserve (l : List (List Char)) (acc : QRInvoiceData) :
    (l.foldl applyQRField acc).currency = acc.currency ∧
    (l.foldl applyQRField acc).supplierName = acc.supplierName := by
  induction l generalizing acc with
  | nil => exact ⟨rfl, rfl⟩
  | cons f rest ih =>
    simp only [List.foldl_cons]
    obtain ⟨h1, h2⟩ := ih (applyQRField acc f)
    obtain ⟨g1, g2⟩ := applyQRField_preserve acc f
    exact ⟨h1.trans g1, h2.trans g2⟩

/-- `parseQRCodeData` leaves the currency at its initial EUR and never
assigns a supplier name, on every input. -/
lemma parseQRCodeData_currency_supplier (qrData : String) :
    (parseQRCodeData qrData).currency = some "EUR" ∧
    (parseQRCodeData qrData).supplierName = none := by
  obtain ⟨hc, hs⟩ :=
    foldl_applyQRField_preserve (splitChar '*' qrData.toList) initQRData
  have hf : ∀ cs d, (qrFallbackInvoice cs d).currency = d.currency ∧
      (qrFallbackInvoice cs d).supplierName = d.supplierName := by
    intro cs d
    unfold qrFallbackInvoice
    (repeat' split) <;> exact ⟨rfl, rfl⟩
  unfold parseQRCodeData qrFallback
  (repeat' split) <;> (try simp only [hf]) <;> exact ⟨hc, hs⟩

end Parse

namespace Parse

/-- Reduction of the segment handler on a well-formed `O:` segment: the
handler is exactly the parse-and-store-if-positive step. -/
lemma applyQRField_O (acc : QRInvoiceData) (a : Char) (as : List Char)
    (hv : ':' ∉ a :: as) :
    applyQRField acc ('O' :: ':' :: a :: as) =
      (match parseFloatDec (replaceFirstChar (a :: as) ',' '.') with
       | some q => if 0 < q.num then { acc with totalValue := some q } else acc
       | none => acc) := by
  have hsplit := splitChar_field 'O' (a :: as) (by decide) hv
  have ht : trimWs ['O'] = ['O'] := by decide
  unfold applyQRField
  rw [hsplit]
  simp [ht]

/-- Reduction of the segment handler on a well-formed 8-character `F:`
segment: the value is reformatted as an ISO date. -/
lemma applyQRField_F (acc : QRInvoiceData) (a : Char) (as : List Char)
    (hv : ':' ∉ a :: as) (hlen : (a :: as).length = 8) :
    applyQRField acc ('F' :: ':' :: a :: as) =
      { acc with invoiceDate := some (String.mk
          ((a :: as).take 4 ++ '-' ::
            (((a :: as).drop 4).take 2 ++ '-' :: (a :: as).drop 6))) } := by
  have hsplit := splitChar_field 'F' (a :: as) (by decide) hv
  have ht : trimWs ['F'] = ['F'] := by decide
  have has7 : as.length = 7 := by simpa using hlen
  unfold applyQRField
  rw [hsplit]
  simp [ht, has7]

end Parse

open JobQueue in
/-- Claim C1, counterexample: the state (queue 0, active 1) is reachable
(one enqueue from the initial state), a worker is active there, yet on that
worker's exit the guard of the `finally` block does not re-invoke
`startProcessors` — the re-invocation is not unconditional. -/
theorem claim_C1_counterexample :
    Reachable ⟨0, 1⟩ ∧ 0 < (QState.mk 0 1).active ∧
      workerExitRestarts ⟨0, 1⟩ = false := by
  refine ⟨?_, by decide, by decide⟩
  have h := Reachable.step Reachable.init (Step.enqueue ⟨0, 0⟩)
  have he : addToQueue ⟨0, 0⟩ = (⟨0, 1⟩ : QState) := by decide
  exact he ▸ h

open JobQueue in
/-- Claim C1 (amended): after every worker exit the active-worker count is
decremented and `startProcessors` is re-invoked exactly when the queue is
non-empty — the accompanying post-decrement capacity check never blocks it
in a reachable state — and consequently no reachable state has a non-empty
queue with zero active workers. -/
theorem claim_C1 (s : QState) (h : Reachable s) :
    (0 < s.active → (workerExitRestarts s = true ↔ 0 < s.queue)) ∧
    (0 < s.queue → 0 < s.active) := by
  obtain ⟨hle, hpos⟩ := inv_reachable h
  refine ⟨fun _ => ?_, hpos⟩
  have hM : 0 < MAX_CONCURRENT_PROCESSORS := by norm_num [MAX_CONCURRENT_PROCESSORS]
  constructor
  · intro hw
    simp only [workerExitRestarts, decide_eq_true_eq] at hw
    exact hw.1
  · intro hq
    simp only [workerExitRestarts, decide_eq_true_eq]
    exact ⟨hq, by omega⟩

open JobQueue in
/-- Witness for claim C1 at the reachable state (queue 1, active 10),
reached by eleven consecutive enqueues. -/
theorem claim_C1_witness :
    (0 < (QState.mk 1 10).active →
      (workerExitRestarts ⟨1, 10⟩ = true ↔ 0 < (QState.mk 1 10).queue)) ∧
    (0 < (QState.mk 1 10).queue → 0 < (QState.mk 1 10).active) := by
  have h0 : Reachable ⟨0, 0⟩ := Reachable.init
  have h1 := reachable_addToQueue h0
  have h2 := reachable_addToQueue h1
  have h3 := reachable_addToQueue h2
  have h4 := reachable_addToQueue h3
  have h5 := reachable_addToQueue h4
  have h6 := reachable_addToQueue h5
  have h7 := reachable_addToQueue h6
  have h8 := reachable_addToQueue h7
  have h9 := reachable_addToQueue h8
  have h10 := reachable_addToQueue h9
  have h11 := reachable_addToQueue h10
  have he : addToQueue (addToQueue (addToQueue (addToQueue (addToQueue
      (addToQueue (addToQueue (addToQueue (addToQueue (addToQueue
      (addToQueue ⟨0, 0⟩)))))))))) = (⟨1, 10⟩ : QState) := by decide
  exact claim_C1 ⟨1, 10⟩ (he ▸ h11)

open JobQueue in
/-- Claim C2: in every reachable state the active-worker count is bounded
by `MAX_CONCURRENT_PROCESSORS`, and `startProcessors` is the identity on
any state with an empty queue (it starts workers only while the queue is
non-empty). -/
theorem claim_C2 (s t : QState) (hs : Reachable s) (ht : t.queue = 0) :
    s.active ≤ MAX_CONCURRENT_PROCESSORS ∧ startProcessors t = t := by
  refine ⟨(inv_reachable hs).1, ?_⟩
  obtain ⟨q, a⟩ := t
  obtain rfl : q = 0 := ht
  rfl

open JobQueue in
/-- Witness for claim C2 at the reachable state (queue 0, active 1) and the
empty-queue state (queue 0, active 3). -/
theorem claim_C2_witness :
    (QState.mk 0 1).active ≤ MAX_CONCURRENT_PROCESSORS ∧
      startProcessors ⟨0, 3⟩ = (⟨0, 3⟩ : QState) := by
  have h := Reachable.step Reachable.init (Step.enqueue ⟨0, 0⟩)
  have he : addToQueue ⟨0, 0⟩ = (⟨0, 1⟩ : QState) := by decide
  exact claim_C2 ⟨0, 1⟩ ⟨0, 3⟩ (he ▸ h) rfl

open JobQueue in
/-- Claim C6: the worker loop records every job's outcome — success or
failure of the per-job extraction — in dequeue order, never terminating
early and never propagating a per-job failure (the run's result type is a
plain list of outcomes, one per job), and it observes the fixed 500 ms
delay after each job. -/
theorem claim_C6 (process : Nat → Nat → Except String Unit)
    (jobs : List (Nat × Nat)) :
    (processQueueRun process jobs).1 = jobs.map (fun j => (j, process j.1 j.2)) ∧
    (processQueueRun process jobs).2 = 500 * jobs.length := by
  induction jobs with
  | nil => exact ⟨rfl, rfl⟩
  | cons j rest ih =>
    refine ⟨?_, ?_⟩
    · simp only [processQueueRun, ih.1, List.map_cons]
    · simp only [processQueueRun, ih.2, List.length_cons]
      ring

open Cascade in
/-- Claim C3, counterexample: for a 2500 by 1000 image the downscale
strategies are attempted, yet an exhaustive run (every decode attempt
failing) continues past them: the strategy order ends with
invert-normalize, six strategies after scale-800, so the cascade does not
end with the resolution-downscale step. -/
theorem claim_C3_counterexample :
    scanQRCodeAttempts (fun _ => none) 2500 1000 =
      ["original", "greyscale-contrast", "normalize-contrast", "invert",
       "brightness", "posterize", "blur", "normalize-only",
       "scale-1600", "scale-1200", "scale-800",
       "posterize-aggressive", "bright-normalize", "dark-contrast",
       "posterize-first", "double-contrast", "invert-normalize"] ∧
    (strategyOrder 2500 1000).getLast? = some "invert-normalize" ∧
    "scale-800" ∈ strategyOrder 2500 1000 := by
  refine ⟨rfl, rfl, ?_⟩
  show "scale-800" ∈ strategyOrder 2500 1000
  decide

open Cascade in
/-- Claim C3 (amended): `scanQRCode` tries its preprocessing strategies in
a fixed deterministic order — the identity strategy first, the three
resolution-downscale attempts included exactly when the image's width or
height exceeds 2000 pixels and placed after normalize-only but before six
further correction strategies — and the first strategy whose decode
attempt succeeds terminates the search immediately, with no further
strategy attempted; likewise inside `tryQRScan` the first successful
engine stops all further engine attempts. -/
theorem claim_C3 (w h : Nat) (decode : String → Option String)
    (pre post : List String) (x b : String)
    (horder : strategyOrder w h = pre ++ x :: post)
    (hpre : ∀ y ∈ pre, decode y = none) (hx : decode x = some b)
    (engine : String → Option String) (epre epost : List String) (e c : String)
    (heng : qrEngines = epre ++ e :: epost)
    (hepre : ∀ y ∈ epre, engine y = none) (hec : engine e = some c) :
    (strategyOrder w h).head? = some "original" ∧
    (¬(2000 < w ∨ 2000 < h) → strategyOrder w h = preStrategies ++ postStrategies) ∧
    ((2000 < w ∨ 2000 < h) →
      strategyOrder w h = preStrategies ++ downscaleStrategies ++ postStrategies) ∧
    scanQRCode decode w h = some b ∧
    scanQRCodeAttempts decode w h = pre ++ [x] ∧
    tryQRScan engine = some c ∧
    tryQRScanAttempts engine = epre ++ [e] := by
  have hstrat := traceFirst_append_cons decode x b pre post hpre hx
  have hengine := traceFirst_append_cons engine e c epre epost hepre hec
  refine ⟨?_, fun hg => ?_, fun hg => ?_, ?_, ?_, ?_, ?_⟩
  · simp [strategyOrder, preStrategies]
  · simp [strategyOrder, hg]
  · simp [strategyOrder, hg, List.append_assoc]
  · simp only [scanQRCode, horder, hstrat]
  · simp only [scanQRCodeAttempts, horder, hstrat]
  · simp only [tryQRScan, heng, hengine]
  · simp only [tryQRScanAttempts, heng, hengine]

open Cascade in
/-- Witness for claim C3: a 100 by 100 image whose decode succeeds only at
the normalize-contrast strategy, and an engine oracle succeeding only at
the ZXing HybridBinarizer engine. -/
theorem claim_C3_witness :
    (strategyOrder 100 100).head? = some "original" ∧
    (¬(2000 < 100 ∨ 2000 < 100) →
      strategyOrder 100 100 = preStrategies ++ postStrategies) ∧
    ((2000 < 100 ∨ 2000 < 100) →
      strategyOrder 100 100 = preStrategies ++ downscaleStrategies ++ postStrategies) ∧
    scanQRCode (fun s => if s = "normalize-contrast" then some "PAYLOAD" else none)
      100 100 = some "PAYLOAD" ∧
    scanQRCodeAttempts (fun s => if s = "normalize-contrast" then some "PAYLOAD" else none)
      100 100 = ["original", "greyscale-contrast"] ++ ["normalize-contrast"] ∧
    tryQRScan (fun e => if e = "zxing-hybridbinarizer" then some "X" else none) = some "X" ∧
    tryQRScanAttempts (fun e => if e = "zxing-hybridbinarizer" then some "X" else none) =
      ["jsqr-attemptBoth"] ++ ["zxing-hybridbinarizer"] :=
  claim_C3 100 100 _
    ["original", "greyscale-contrast"]
    ["invert", "brightness", "posterize", "blur", "normalize-only",
     "posterize-aggressive", "bright-normalize", "dark-contrast",
     "posterize-first", "double-contrast", "invert-normalize"]
    "normalize-contrast" "PAYLOAD" (by decide) (by decide) (by decide)
    _ ["jsqr-attemptBoth"] ["zxing-globalhistogram"]
    "zxing-hybridbinarizer" "X" (by decide) (by decide) (by decide)

open Parse in
set_option maxRecDepth 8000 in
/-- Claim C4 (code bug exhibited): the free-text extractor returns 1234.56
on the European-format input, and the comma-decimal branch is taken
exactly when the last comma of the matched value occurs after its last
period; but on the US-format input the claim's expected 1234.56 is not
produced — the currency-prefix pattern matches the truncated substring
before the total-amount-due pattern is tried, yielding 1.23. -/
theorem claim_C4 :
    (parseInvoiceData "Total: Eur 1.234,56").totalValue = some ⟨123456, 2⟩ ∧
    Dec.toQ ⟨123456, 2⟩ = 123456 / 100 ∧
    (∀ v : List Char,
      commaDecimal v = true ↔ lastIndexOf v '.' < lastIndexOf v ',') ∧
    (parseInvoiceData "Total Amount Due: $1,234.56").totalValue = some ⟨123, 2⟩ ∧
    Dec.toQ ⟨123, 2⟩ = 123 / 100 := by
  refine ⟨by decide, ?_, commaDecimal_iff, by decide, ?_⟩
  · norm_num [Dec.toQ]
  · norm_num [Dec.toQ]

open Pdf in
/-- Claim C5: the PDF scale list is exactly 4.0, 3.5, 3.0, 2.5, 2.0 in
strictly descending order over page 1; a render or scan failure at one
scale is non-fatal (the loop continues with the remaining scales); and
when no scale yields a payload the function returns the all-null record
under the method tag qr-code-pdf-failed instead of throwing. -/
theorem claim_C5 (attempt : ℚ → Except String (Option String)) (s : ℚ)
    (rest : List ℚ) (e : String)
    (hfail : attempt s = Except.error e)
    (hall : ∀ u ∈ pdfScales, ∀ qr, attempt u ≠ Except.ok (some qr)) :
    pdfScales = [4, 7/2, 3, 5/2, 2] ∧
    List.Chain' (fun a b => b < a) pdfScales ∧
    pdfPageNumber = 1 ∧
    pdfScaleLoop attempt (s :: rest) = pdfScaleLoop attempt rest ∧
    extractFromPDF attempt = { text := "", method := "qr-code-pdf-failed" } := by
  refine ⟨rfl, ?_, rfl, ?_, ?_⟩
  · norm_num [pdfScales]
  · simp [pdfScaleLoop, hfail]
  · have hnone : ∀ l : List ℚ,
        (∀ u ∈ l, ∀ qr, attempt u ≠ Except.ok (some qr)) →
        pdfScaleLoop attempt l = none := by
      intro l
      induction l with
      | nil => intro _; rfl
      | cons a as ih =>
        intro hl
        have ha := hl a (List.mem_cons_self a as)
        have hrest := fun u hu => hl u (List.mem_cons_of_mem a hu)
        cases hat : attempt a with
        | ok o =>
          cases o with
          | none => simpa [pdfScaleLoop, hat] using ih hrest
          | some qr => exact absurd hat (ha qr)
        | error er => simpa [pdfScaleLoop, hat] using ih hrest
    unfold extractFromPDF
    rw [hnone pdfScales hall]

open Pdf in
/-- Witness for claim C5: an attempt function that fails to render at
every scale. -/
theorem claim_C5_witness :
    pdfScales = [4, 7/2, 3, 5/2, 2] ∧
    List.Chain' (fun a b => b < a) pdfScales ∧
    pdfPageNumber = 1 ∧
    pdfScaleLoop (fun _ => Except.error "render") (4 :: []) =
      pdfScaleLoop (fun _ => Except.error "render") [] ∧
    extractFromPDF (fun _ => Except.error "render") =
      { text := "", method := "qr-code-pdf-failed" } :=
  claim_C5 (fun _ => Except.error "render") 4 [] "render" rfl
    (fun _ _ _ h => Except.noConfusion h)

open Parse in
set_option maxRecDepth 8000 in
/-- Claim C7: a well-formed `O:` segment stores its comma-decimal value
exactly when the parsed value is strictly positive (otherwise the record
is unchanged), and the representative payload with segment `O:55,20`
yields the total 55.20. -/
theorem claim_C7 (acc : QRInvoiceData) (a : Char) (as : List Char) (q : Dec)
    (hv : ':' ∉ a :: as)
    (hq : parseFloatDec (replaceFirstChar (a :: as) ',' '.') = some q) :
    (0 < q.num →
      applyQRField acc ('O' :: ':' :: a :: as) = { acc with totalValue := some q }) ∧
    (¬ 0 < q.num → applyQRField acc ('O' :: ':' :: a :: as) = acc) ∧
    (parseQRCodeData atcudPayload).totalValue = some ⟨5520, 2⟩ ∧
    Dec.toQ ⟨5520, 2⟩ = 5520 / 100 := by
  refine ⟨fun hpos => ?_, fun hneg => ?_, by decide, by norm_num [Dec.toQ]⟩
  · rw [applyQRField_O acc a as hv, hq]
    simp [hpos]
  · rw [applyQRField_O acc a as hv, hq]
    simp [hneg]

open Parse in
set_option maxRecDepth 8000 in
/-- Witness for claim C7 at the segment value 55,20. -/
theorem claim_C7_witness :
    (0 < (Dec.mk 5520 2).num →
      applyQRField initQRData ('O' :: ':' :: '5' :: ['5', ',', '2', '0']) =
        { initQRData with totalValue := some ⟨5520, 2⟩ }) ∧
    (¬ 0 < (Dec.mk 5520 2).num →
      applyQRField initQRData ('O' :: ':' :: '5' :: ['5', ',', '2', '0']) = initQRData) ∧
    (parseQRCodeData atcudPayload).totalValue = some ⟨5520, 2⟩ ∧
    Dec.toQ ⟨5520, 2⟩ = 5520 / 100 :=
  claim_C7 initQRData '5' ['5', ',', '2', '0'] ⟨5520, 2⟩ (by decide) (by decide)

open Parse in
set_option maxRecDepth 8000 in
/-- Claim C8: an 8-digit `F:` segment yields the ISO-8601 date formed from
the first four, next two and last two characters of its value, and the
representative payload with segment `F:20250929` yields 2025-09-29. -/
theorem claim_C8 (acc : QRInvoiceData) (a : Char) (as : List Char)
    (hlen : (a :: as).length = 8) (hd : ∀ c ∈ a :: as, c.isDigit = true) :
    applyQRField acc ('F' :: ':' :: a :: as) =
      { acc with invoiceDate := some (String.mk
          ((a :: as).take 4 ++ '-' ::
            (((a :: as).drop 4).take 2 ++ '-' :: (a :: as).drop 6))) } ∧
    (parseQRCodeData atcudPayload).invoiceDate = some "2025-09-29" := by
  have hv : ':' ∉ a :: as := by
    intro hm
    have := hd ':' hm
    simp at this
  exact ⟨applyQRField_F acc a as hv hlen, by decide⟩

open Parse in
set_option maxRecDepth 8000 in
/-- Witness for claim C8 at the segment value 20250929. -/
theorem claim_C8_witness :
    applyQRField initQRData ('F' :: ':' :: '2' :: ['0', '2', '5', '0', '9', '2', '9']) =
      { initQRData with invoiceDate := some (String.mk
          (('2' :: ['0', '2', '5', '0', '9', '2', '9']).take 4 ++ '-' ::
            ((('2' :: ['0', '2', '5', '0', '9', '2', '9']).drop 4).take 2 ++ '-' ::
              ('2' :: ['0', '2', '5', '0', '9', '2', '9']).drop 6))) } ∧
    (parseQRCodeData atcudPayload).invoiceDate = some "2025-09-29" :=
  claim_C8 initQRData '2' ['0', '2', '5', '0', '9', '2', '9'] (by decide) (by decide)

open Parse in
set_option maxRecDepth 8000 in
/-- Claim C9: both parsers are total functions into records whose fields
are all optional and independently extracted — `parseInvoiceData` is
field-by-field the tuple of its per-field extractors (with `invoiceDate`
always null and no cross-field rejection), `parseQRCodeData` never
assigns a supplier, and on an input from which nothing can be extracted
each parser returns the record of explicit nulls rather than failing. -/
theorem claim_C9 (text payload : String) :
    parseInvoiceData text =
      { totalValue := extractTotalValue (trimWs (collapseWs text.toList)),
        currency := extractCurrency (trimWs (collapseWs text.toList)),
        invoiceNumber := extractInvoiceNumber (trimWs (collapseWs text.toList)),
        invoiceDate := none,
        supplierName := extractSupplier text.toList } ∧
    (parseQRCodeData payload).supplierName = none ∧
    parseInvoiceData "???" = ⟨none, none, none, none, none⟩ ∧
    parseQRCodeData "???" = ⟨none, some "EUR", none, none, none, none⟩ :=
  ⟨rfl, (parseQRCodeData_currency_supplier payload).2, by decide, by decide⟩

open Parse in
/-- Claim C10: the currency field of `parseQRCodeData` is initialized to
EUR and no branch ever changes it, so every input — including payloads
that are not structured invoice codes at all — yields currency EUR. -/
theorem claim_C10 (qrData : String) :
    (parseQRCodeData qrData).currency = some "EUR" :=
  (parseQRCodeData_currency_supplier qrData).1
